import Mathlib

/-!
Verification of the EasyVVUQ-QCGPJ task-submission orchestration core
(`easypj/core/executor.py`) against its specification.

The Python module is shallowly embedded below: enums become inductive types,
the `Task` class and the `Executor` registry become structures, the four
`_get_*_task` descriptor builders become pure functions returning
`Except BuildError TaskDescriptor` (a Python `AttributeError` raised by
calling a method on the `None` returned from a failed dict lookup is the
failure the specification's taxonomy names `MissingTaskSpec`), and the
strategy dispatch `__submit_jobs` becomes a function returning the ordered
list of descriptors handed to the scheduler client, one per `submit` call.
The campaign and the scheduler are external collaborators; they are modelled
at the boundary described by the specification (section 6).
-/

namespace EasyPJ

/-- The `ServiceLogLevel` enum: member names CRITICAL, ERROR, WARNING, INFO,
DEBUG with lower-case string values. -/
inductive ServiceLogLevel
  | CRITICAL
  | ERROR
  | WARNING
  | INFO
  | DEBUG
deriving DecidableEq, Repr

/-- Python `ServiceLogLevel[name]` (enum lookup by member name); a missing
name raises `KeyError`, modelled by `Option.none`. -/
def ServiceLogLevel.ofName : String → Option ServiceLogLevel
  | "CRITICAL" => some .CRITICAL
  | "ERROR" => some .ERROR
  | "WARNING" => some .WARNING
  | "INFO" => some .INFO
  | "DEBUG" => some .DEBUG
  | _ => Option.none

/-- The `.value` attribute of a `ServiceLogLevel` member. -/
def ServiceLogLevel.value : ServiceLogLevel → String
  | .CRITICAL => "critical"
  | .ERROR => "error"
  | .WARNING => "warning"
  | .INFO => "info"
  | .DEBUG => "debug"

/-- The `ClientLogLevel` enum: member names INFO and DEBUG. -/
inductive ClientLogLevel
  | INFO
  | DEBUG
deriving DecidableEq, Repr

/-- Python `ClientLogLevel[name]` (enum lookup by member name). -/
def ClientLogLevel.ofName : String → Option ClientLogLevel
  | "INFO" => some .INFO
  | "DEBUG" => some .DEBUG
  | _ => Option.none

/-- The `.value` attribute of a `ClientLogLevel` member. -/
def ClientLogLevel.value : ClientLogLevel → String
  | .INFO => "info"
  | .DEBUG => "debug"

/-- Python's `str.upper()`, applied character-wise (the inputs of interest
are ASCII, where Lean's `Char.toUpper` agrees with Python). -/
def pyUpper (s : String) : String := String.mk (s.data.map Char.toUpper)

/-- The log-level translation performed by `Executor.create_manager`
(executor.py lines 141-151): upper-case the given name, look it up by member
name in `ServiceLogLevel` and in `ClientLogLevel`, and on a `KeyError` fall
back to the respective DEBUG member's value.  Returns the pair
`(service_log_level, client_log_level)`. -/
def create_manager_log_levels (log_level : String) : String × String :=
  let u := pyUpper log_level
  let service_log_level :=
    match ServiceLogLevel.ofName u with
    | some lv => lv.value
    | Option.none => ServiceLogLevel.DEBUG.value
  let client_log_level :=
    match ClientLogLevel.ofName u with
    | some lv => lv.value
    | Option.none => ClientLogLevel.DEBUG.value
  (service_log_level, client_log_level)

/-- The `SubmitOrder` enum (its Python values are prose descriptions, used
only as documentation, never compared; only member identity matters). -/
inductive SubmitOrder
  | PHASE_ORIENTED
  | RUN_ORIENTED
  | RUN_ORIENTED_CONDENSED
  | EXEC_ONLY
deriving DecidableEq, Repr

/-- The `TaskType` enum. -/
inductive TaskType
  | ENCODING
  | EXECUTION
  | ENCODING_AND_EXECUTION
  | OTHER
deriving DecidableEq, Repr

/-- The `.value` attribute of a `TaskType` member (equal to its name). -/
def TaskType.value : TaskType → String
  | .ENCODING => "ENCODING"
  | .EXECUTION => "EXECUTION"
  | .ENCODING_AND_EXECUTION => "ENCODING_AND_EXECUTION"
  | .OTHER => "OTHER"

/-- A `Task`'s `_name` attribute is whatever `name if name else type`
produced: either the caller-supplied string or the `TaskType` member itself.
A Python string and a `TaskType` member are distinct objects that never
compare equal, which this sum type reflects. -/
inductive TaskName
  | ofString (s : String)
  | ofType (t : TaskType)
deriving DecidableEq, Repr

/-- Modelled from the spec: the `TaskRequirements` class is part of this
repository but its module is not under `src/`; per the specification it is
"a resource description translatable to the scheduler's native
resource-request shape", whose `get_resources()` result is merged into the
task descriptor dict by `update(requirements)`.  The payload is modelled as
an abstract string carried through unchanged. -/
structure TaskRequirements where
  resources : String
deriving DecidableEq, Repr

/-- The `Task` class (executor.py lines 43-75): fields `_type`,
`_requirements`, `_params` (an open string-keyed mapping) and `_name`. -/
structure Task where
  type : TaskType
  requirements : TaskRequirements
  params : List (String × String)
  name : TaskName
deriving DecidableEq, Repr

/-- `Task.__init__` (lines 59-63): `self._name = name if name else type`.
`name` is documented as a string; Python truthiness makes both `None` and
the empty string fall back to the `type` member. -/
def Task.fromInit (type : TaskType) (requirements : TaskRequirements)
    (name : Option String) (params : List (String × String)) : Task :=
  { type := type
    requirements := requirements
    params := params
    name :=
      match name with
      | some s => if s = "" then TaskName.ofType type else TaskName.ofString s
      | Option.none => TaskName.ofType type }

/-- The `Executor`'s own state: the `_tasks` dict (keyed by task name) and
the `_qcgpj_tempdir` scratch directory.  The scheduler handle is an external
collaborator and is not part of the embedded state. -/
structure Executor where
  tasks : List (TaskName × Task)
  qcgpj_tempdir : String
deriving DecidableEq, Repr

/-- `Executor.__init__`: empty task dict, tempdir `"."`. -/
def executorInit : Executor :=
  { tasks := [], qcgpj_tempdir := "." }

/-- Python dict assignment `d[k] = v`: at most one entry per key remains and
a subsequent lookup of `k` yields `v`. -/
def dictSet {α β : Type} [DecidableEq α] (d : List (α × β)) (k : α) (v : β) :
    List (α × β) :=
  (k, v) :: d.filter (fun p => ¬ p.1 = k)

/-- `Executor.add_task` (line 187): `self._tasks[task.get_name()] = task` —
the dict is keyed by the task's *name*. -/
def Executor.add_task (e : Executor) (task : Task) : Executor :=
  { e with tasks := dictSet e.tasks task.name task }

/-- Run statuses of the external campaign database (`uq.constants.Status`);
only NEW and ENCODED are touched by this core, every other status is
represented by `other`. -/
inductive Status
  | NEW
  | ENCODED
  | other (s : String)
deriving DecidableEq, Repr

/-- A run record as iterated by `campaign.list_runs()`: carries at least
`run_dir`. -/
structure RunRecord where
  run_dir : String
deriving DecidableEq, Repr

/-- The campaign collaborator, modelled at the boundary described by the
specification (section 6): scalar identification fields, the
`(run_key, run_record)` pairs yielded by `list_runs()`, and the run-status
table consulted by `call_for_each_run` and updated by
`campaign_db.set_run_statuses`. -/
structure Campaign where
  db_type : String
  db_location : String
  campaign_name : String
  active_app_name : String
  runs : List (String × RunRecord)
  statuses : List (String × Status)
deriving DecidableEq, Repr

/-- Failures of the descriptor builders.  `MissingTaskSpec` is the failure
when a required task kind was never registered (in Python, the
`AttributeError` raised on calling a method of the `None` returned by the
failed `self._tasks.get(...)`).  `MissingParameter` is the failure the
specification assigns to a missing `application` param; it is declared here
so that statements about it can be made (the embedded code never raises
it — `dict.get` returns `None` instead). -/
inductive BuildError
  | MissingTaskSpec
  | MissingParameter
deriving DecidableEq, Repr

/-- The `execution` sub-dict of a task descriptor.  An argument is
`Option String` because Python lets a `None` (from a failed params lookup)
flow into the args list. -/
structure Execution where
  exec : String
  args : List (Option String)
  wd : String
  stdout : String
  stderr : String
deriving DecidableEq, Repr

/-- A concrete submittable task descriptor: the dict handed to
`Jobs().addStd(...)`.  `dependencies` is `some after` when the dict carries
a `"dependencies": {"after": after}` entry and `Option.none` when the key is
absent; `resources` holds the merged `get_resources()` payload. -/
structure TaskDescriptor where
  name : String
  execution : Execution
  dependencies : Option (List String)
  resources : String
deriving DecidableEq, Repr

deriving instance DecidableEq for Except

/-- The descriptor dict built by `_get_encoding_task` (lines 194-218) once
the ENCODING spec has been found. -/
def encode_task (tempdir : String) (task : Task) (c : Campaign)
    (run : String × RunRecord) : TaskDescriptor :=
  let key := run.1
  let enc_args : List (Option String) :=
    [some c.db_type, some c.db_location, some "FALSE", some c.campaign_name,
     some c.active_app_name, some key]
  { name := "encode_" ++ key
    execution :=
      { exec := "easyvvuq_encode"
        args := enc_args
        wd := tempdir
        stdout := tempdir ++ "/encode_" ++ key ++ ".stdout"
        stderr := tempdir ++ "/encode_" ++ key ++ ".stderr" }
    dependencies := Option.none
    resources := task.requirements.resources }

/-- The descriptor dict built by `_get_exec_task` (lines 226-251):
`application` is `task.get_params().get("application")`, an optional value
placed directly into the args; the dict declares
`dependencies.after = ["encode_" + key]`. -/
def execute_task (tempdir : String) (task : Task) (run : String × RunRecord) :
    TaskDescriptor :=
  let application := task.params.lookup "application"
  let key := run.1
  let run_dir := run.2.run_dir
  let exec_args : List (Option String) :=
    [some run_dir, some "easyvvuq_app", application]
  { name := "execute_" ++ key
    execution :=
      { exec := "easyvvuq_execute"
        args := exec_args
        wd := tempdir
        stdout := tempdir ++ "/execute_" ++ key ++ ".stdout"
        stderr := tempdir ++ "/execute_" ++ key ++ ".stderr" }
    dependencies := some ["encode_" ++ key]
    resources := task.requirements.resources }

/-- The descriptor dict built by `_get_encoding_and_exec_task`
(lines 259-288): encode args followed by execute args, no dependencies. -/
def encode_execute_task (tempdir : String) (task : Task) (c : Campaign)
    (run : String × RunRecord) : TaskDescriptor :=
  let application := task.params.lookup "application"
  let key := run.1
  let run_dir := run.2.run_dir
  let args : List (Option String) :=
    [some c.db_type, some c.db_location, some "FALSE", some c.campaign_name,
     some c.active_app_name, some key,
     some run_dir, some "easyvvuq_app", application]
  { name := "encode_execute_" ++ key
    execution :=
      { exec := "easyvvuq_encode_execute"
        args := args
        wd := tempdir
        stdout := tempdir ++ "/encode_execute_" ++ key ++ ".stdout"
        stderr := tempdir ++ "/encode_execute_" ++ key ++ ".stderr" }
    dependencies := Option.none
    resources := task.requirements.resources }

/-- The descriptor dict built by `_get_exec_only_task` (lines 296-318):
same shape as `execute_task` but with no `dependencies` key. -/
def execute_only_task (tempdir : String) (task : Task)
    (run : String × RunRecord) : TaskDescriptor :=
  let application := task.params.lookup "application"
  let key := run.1
  let run_dir := run.2.run_dir
  let exec_args : List (Option String) :=
    [some run_dir, some "easyvvuq_app", application]
  { name := "execute_" ++ key
    execution :=
      { exec := "easyvvuq_execute"
        args := exec_args
        wd := tempdir
        stdout := tempdir ++ "/execute_" ++ key ++ ".stdout"
        stderr := tempdir ++ "/execute_" ++ key ++ ".stderr" }
    dependencies := Option.none
    resources := task.requirements.resources }

/-- `Executor._get_encoding_task`: `self._tasks.get(TaskType.ENCODING)`
followed by attribute accesses on the result; a `None` result makes the
method fail (`MissingTaskSpec`). -/
def Executor.get_encoding_task (e : Executor) (c : Campaign)
    (run : String × RunRecord) : Except BuildError TaskDescriptor :=
  match e.tasks.lookup (TaskName.ofType TaskType.ENCODING) with
  | Option.none => Except.error BuildError.MissingTaskSpec
  | some task => Except.ok (encode_task e.qcgpj_tempdir task c run)

/-- `Executor._get_exec_task`: `self._tasks.get(TaskType.EXECUTION)` then
builds the execute descriptor with its dependency on the encode task. -/
def Executor.get_exec_task (e : Executor) (run : String × RunRecord) :
    Except BuildError TaskDescriptor :=
  match e.tasks.lookup (TaskName.ofType TaskType.EXECUTION) with
  | Option.none => Except.error BuildError.MissingTaskSpec
  | some task => Except.ok (execute_task e.qcgpj_tempdir task run)

/-- `Executor._get_encoding_and_exec_task`:
`self._tasks.get(TaskType.ENCODING_AND_EXECUTION)` then builds the condensed
descriptor. -/
def Executor.get_encoding_and_exec_task (e : Executor) (c : Campaign)
    (run : String × RunRecord) : Except BuildError TaskDescriptor :=
  match e.tasks.lookup (TaskName.ofType TaskType.ENCODING_AND_EXECUTION) with
  | Option.none => Except.error BuildError.MissingTaskSpec
  | some task => Except.ok (encode_execute_task e.qcgpj_tempdir task c run)

/-- `Executor._get_exec_only_task`: `self._tasks.get(TaskType.EXECUTION)`
then builds the standalone execute descriptor. -/
def Executor.get_exec_only_task (e : Executor) (run : String × RunRecord) :
    Except BuildError TaskDescriptor :=
  match e.tasks.lookup (TaskName.ofType TaskType.EXECUTION) with
  | Option.none => Except.error BuildError.MissingTaskSpec
  | some task => Except.ok (execute_only_task e.qcgpj_tempdir task run)

/-- One `for run in campaign.list_runs(): self._qcgpjm.submit(...)`
loop: builds and submits one descriptor per run, in order; a builder
failure aborts the loop. -/
def submitEach {α : Type} (build : α → Except BuildError TaskDescriptor) :
    List α → Except BuildError (List TaskDescriptor)
  | [] => Except.ok []
  | r :: rest =>
    match build r with
    | Except.error err => Except.error err
    | Except.ok t =>
      match submitEach build rest with
      | Except.error err => Except.error err
      | Except.ok ts => Except.ok (t :: ts)

/-- The RUN_ORIENTED loop: for each run submit the encode descriptor, then
the execute descriptor, then move to the next run. -/
def submitEachPair {α : Type}
    (build1 build2 : α → Except BuildError TaskDescriptor) :
    List α → Except BuildError (List TaskDescriptor)
  | [] => Except.ok []
  | r :: rest =>
    match build1 r with
    | Except.error err => Except.error err
    | Except.ok t1 =>
      match build2 r with
      | Except.error err => Except.error err
      | Except.ok t2 =>
        match submitEachPair build1 build2 rest with
        | Except.error err => Except.error err
        | Except.ok ts => Except.ok (t1 :: t2 :: ts)

/-- `Executor.__submit_jobs` (lines 349-369): dispatch on `submit_order` by
`==` against the four enum members; Python's dynamic typing admits any other
value, for which every comparison is false and the if/elif chain falls
through submitting nothing — such foreign values are modelled by
`Option.none`.  Returns the descriptors submitted, in submission order. -/
def Executor.submit_jobs (e : Executor) (c : Campaign)
    (submit_order : Option SubmitOrder) :
    Except BuildError (List TaskDescriptor) :=
  if submit_order = some SubmitOrder.RUN_ORIENTED_CONDENSED then
    submitEach (fun run => e.get_encoding_and_exec_task c run) c.runs
  else if submit_order = some SubmitOrder.RUN_ORIENTED then
    submitEachPair (fun run => e.get_encoding_task c run)
      (fun run => e.get_exec_task run) c.runs
  else if submit_order = some SubmitOrder.PHASE_ORIENTED then
    match submitEach (fun run => e.get_encoding_task c run) c.runs with
    | Except.error err => Except.error err
    | Except.ok l1 =>
      match submitEach (fun run => e.get_exec_task run) c.runs with
      | Except.error err => Except.error err
      | Except.ok l2 => Except.ok (l1 ++ l2)
  else if submit_order = some SubmitOrder.EXEC_ONLY then
    submitEach (fun run => e.get_exec_only_task run) c.runs
  else
    Except.ok []

/-- The post-wait synchronisation in `Executor.run` (lines 337-342):
`campaign.call_for_each_run(update_status, status=NEW)` where the callback
sets each such run's status to ENCODED — every run currently in NEW status
is marked ENCODED, all other statuses are untouched. -/
def Campaign.syncEncoded (c : Campaign) : Campaign :=
  { c with
    statuses := c.statuses.map
      (fun p => if p.2 = Status.NEW then (p.1, Status.ENCODED) else p) }

/-- `Executor.run` (lines 320-342): submit the jobs per the chosen order,
block on the scheduler's `wait4all()` (an opaque external call modelled as
returning), then sync the campaign state.  Returns the submitted
descriptors and the updated campaign. -/
def Executor.run (e : Executor) (c : Campaign)
    (submit_order : Option SubmitOrder) :
    Except BuildError (List TaskDescriptor × Campaign) :=
  match e.submit_jobs c submit_order with
  | Except.error err => Except.error err
  | Except.ok submitted => Except.ok (submitted, c.syncEncoded)

/-- The registry invariant maintained by `add_task`: every stored entry is
keyed by its task's name, and every stored task was built by
`Task.__init__` (so its name is either the caller's string or its own
`TaskType` member). -/
def Executor.WellFormed (e : Executor) : Prop :=
  ∀ p ∈ e.tasks, p.1 = (p.2).name ∧
    ((p.2).name = TaskName.ofType (p.2).type ∨
      ∃ s : String, (p.2).name = TaskName.ofString s)

/-- Some spec of the given kind is registered in the executor. -/
def Executor.hasKind (e : Executor) (k : TaskType) : Prop :=
  ∃ p ∈ e.tasks, (p.2).type = k

/-- A concrete resource requirement used as test input. -/
def sampleReq : TaskRequirements := { resources := "resources: 1 core" }

/-- A default-named ENCODING spec. -/
def sampleTaskE : Task := Task.fromInit TaskType.ENCODING sampleReq Option.none []

/-- A default-named EXECUTION spec with an `application` param. -/
def sampleTaskX : Task :=
  Task.fromInit TaskType.EXECUTION sampleReq Option.none [("application", "/bin/app")]

/-- A default-named ENCODING_AND_EXECUTION spec with an `application` param. -/
def sampleTaskC : Task :=
  Task.fromInit TaskType.ENCODING_AND_EXECUTION sampleReq Option.none
    [("application", "/bin/app")]

/-- An executor with all three consumable kinds registered. -/
def sampleExecutor : Executor :=
  ((executorInit.add_task sampleTaskE).add_task sampleTaskX).add_task sampleTaskC

/-- A two-run campaign used as test input. -/
def sampleCampaign : Campaign :=
  { db_type := "sql"
    db_location := "db.sqlite"
    campaign_name := "camp"
    active_app_name := "app"
    runs := [("Run_1", { run_dir := "/tmp/Run_1" }), ("Run_2", { run_dir := "/tmp/Run_2" })]
    statuses := [("Run_1", Status.NEW), ("Run_2", Status.other "COLLATED")] }

/-- An EXECUTION spec whose params lack the `application` key. -/
def noAppTaskX : Task := Task.fromInit TaskType.EXECUTION sampleReq Option.none []

/-- An ENCODING_AND_EXECUTION spec whose params lack the `application` key. -/
def noAppTaskC : Task :=
  Task.fromInit TaskType.ENCODING_AND_EXECUTION sampleReq Option.none []

/-- An executor whose EXECUTION and ENCODING_AND_EXECUTION specs lack the
`application` param. -/
def noAppExecutor : Executor :=
  (executorInit.add_task noAppTaskX).add_task noAppTaskC

/-- Two EXECUTION-kind specs under distinct explicit names. -/
def dupTaskA : Task := Task.fromInit TaskType.EXECUTION sampleReq (some "a") []

/-- Second EXECUTION-kind spec under another explicit name. -/
def dupTaskB : Task := Task.fromInit TaskType.EXECUTION sampleReq (some "b") []

/-- An executor holding both explicitly named EXECUTION-kind specs. -/
def dupExecutor : Executor := (executorInit.add_task dupTaskA).add_task dupTaskB

section Helpers

/-- String concatenation is left-cancellative. -/
theorem string_append_left_cancel (p a b : String) (h : p ++ a = p ++ b) :
    a = b := by
  apply String.ext
  have hd := congrArg String.data h
  simpa [String.data_append] using hd

/-- No encode task name coincides with an execute task name. -/
theorem encode_name_ne_execute_name (a b : String) :
    "encode_" ++ a ≠ "execute_" ++ b := by
  intro h
  have hd := congrArg String.data h
  rw [String.data_append, String.data_append] at hd
  have he : "encode_".data = ['e', 'n', 'c', 'o', 'd', 'e', '_'] := by decide
  have hx : "execute_".data = ['e', 'x', 'e', 'c', 'u', 't', 'e', '_'] := by decide
  rw [he, hx] at hd
  simp at hd

/-- A successful assoc-list lookup yields a stored entry. -/
theorem lookup_mem {α β : Type} [DecidableEq α] (l : List (α × β)) (k : α)
    (v : β) (h : l.lookup k = some v) : (k, v) ∈ l := by
  induction l with
  | nil => cases h
  | cons p rest ih =>
    rw [List.lookup] at h
    by_cases hk : k = p.1
    · have hb : (k == p.1) = true := beq_iff_eq.mpr hk
      rw [hb] at h
      cases h
      subst hk
      exact List.mem_cons_self _ _
    · have hb : (k == p.1) = false := beq_eq_false_iff_ne.mpr hk
      rw [hb] at h
      exact List.mem_cons_of_mem _ (ih h)

/-- In a well-formed registry, looking up a kind's member as key fails when
no spec of that kind is registered. -/
theorem lookup_ofType_eq_none (e : Executor) (k : TaskType)
    (hw : e.WellFormed) (hk : ¬ e.hasKind k) :
    e.tasks.lookup (TaskName.ofType k) = Option.none := by
  cases hl : e.tasks.lookup (TaskName.ofType k) with
  | none => rfl
  | some t =>
    exfalso
    have hmem : (TaskName.ofType k, t) ∈ e.tasks := lookup_mem _ _ _ hl
    obtain ⟨hkey, hshape⟩ := hw _ hmem
    have hkey' : TaskName.ofType k = t.name := hkey
    rcases hshape with hshape | ⟨s, hshape⟩
    · have hshape' : t.name = TaskName.ofType t.type := hshape
      have hk2 : TaskName.ofType k = TaskName.ofType t.type := hkey'.trans hshape'
      injection hk2 with hk3
      exact hk ⟨(TaskName.ofType k, t), hmem, hk3.symm⟩
    · have hshape' : t.name = TaskName.ofString s := hshape
      cases hkey'.trans hshape'

/-- A submission loop over builders that all succeed yields the mapped
descriptor list. -/
theorem submitEach_eq_ok {α : Type} (build : α → Except BuildError TaskDescriptor)
    (g : α → TaskDescriptor) (rs : List α)
    (h : ∀ r ∈ rs, build r = Except.ok (g r)) :
    submitEach build rs = Except.ok (rs.map g) := by
  induction rs with
  | nil => rfl
  | cons r rest ih =>
    have h1 : build r = Except.ok (g r) := h r (List.mem_cons_self r rest)
    have h2 := ih (fun x hx => h x (List.mem_cons_of_mem _ hx))
    simp [submitEach, h1, h2]

/-- A paired submission loop over builders that all succeed yields the
per-run interleaved descriptor list. -/
theorem submitEachPair_eq_ok {α : Type}
    (build1 build2 : α → Except BuildError TaskDescriptor)
    (g1 g2 : α → TaskDescriptor) (rs : List α)
    (h1 : ∀ r ∈ rs, build1 r = Except.ok (g1 r))
    (h2 : ∀ r ∈ rs, build2 r = Except.ok (g2 r)) :
    submitEachPair build1 build2 rs
      = Except.ok (rs.flatMap fun r => [g1 r, g2 r]) := by
  induction rs with
  | nil => rfl
  | cons r rest ih =>
    have hb1 : build1 r = Except.ok (g1 r) := h1 r (List.mem_cons_self r rest)
    have hb2 : build2 r = Except.ok (g2 r) := h2 r (List.mem_cons_self r rest)
    have hrest := ih (fun x hx => h1 x (List.mem_cons_of_mem _ hx))
      (fun x hx => h2 x (List.mem_cons_of_mem _ hx))
    simp [submitEachPair, hb1, hb2, hrest]

/-- Names of descriptors produced by a successful submission loop, given a
name law for its builder. -/
theorem submitEach_ok_names {α : Type}
    (build : α → Except BuildError TaskDescriptor) (f : α → String)
    (rs : List α) (ds : List TaskDescriptor)
    (hb : ∀ r d, build r = Except.ok d → d.name = f r)
    (h : submitEach build rs = Except.ok ds) :
    ds.map TaskDescriptor.name = rs.map f := by
  induction rs generalizing ds with
  | nil =>
    rw [submitEach] at h
    cases h
    rfl
  | cons r rest ih =>
    rw [submitEach] at h
    cases hbr : build r with
    | error err => rw [hbr] at h; cases h
    | ok t =>
      rw [hbr] at h
      cases hrest : submitEach build rest with
      | error err => rw [hrest] at h; cases h
      | ok ts =>
        rw [hrest] at h
        cases h
        simp [hb r t hbr, ih ts hrest]

/-- Names of descriptors produced by a successful paired submission loop. -/
theorem submitEachPair_ok_names {α : Type}
    (build1 build2 : α → Except BuildError TaskDescriptor)
    (f1 f2 : α → String) (rs : List α) (ds : List TaskDescriptor)
    (hb1 : ∀ r d, build1 r = Except.ok d → d.name = f1 r)
    (hb2 : ∀ r d, build2 r = Except.ok d → d.name = f2 r)
    (h : submitEachPair build1 build2 rs = Except.ok ds) :
    ds.map TaskDescriptor.name = rs.flatMap fun r => [f1 r, f2 r] := by
  induction rs generalizing ds with
  | nil =>
    rw [submitEachPair] at h
    cases h
    rfl
  | cons r rest ih =>
    rw [submitEachPair] at h
    cases hbr1 : build1 r with
    | error err => rw [hbr1] at h; cases h
    | ok t1 =>
      rw [hbr1] at h
      cases hbr2 : build2 r with
      | error err => rw [hbr2] at h; cases h
      | ok t2 =>
        rw [hbr2] at h
        cases hrest : submitEachPair build1 build2 rest with
        | error err => rw [hrest] at h; cases h
        | ok ts =>
          rw [hrest] at h
          cases h
          simp [hb1 r t1 hbr1, hb2 r t2 hbr2, ih ts hrest]

/-- The interleaved per-run list is a permutation of the phase-ordered
list. -/
theorem flatMap_pair_perm {α β : Type} (l : List α) (f g : α → β) :
    (l.flatMap fun a => [f a, g a]).Perm (l.map f ++ l.map g) := by
  induction l with
  | nil => simp
  | cons a l ih =>
    simp only [List.flatMap_cons, List.map_cons, List.cons_append]
    exact List.Perm.cons _ ((List.Perm.cons (g a) ih).trans List.perm_middle.symm)

/-- Strategy dispatch equation: condensed branch. -/
theorem submit_jobs_condensed (e : Executor) (c : Campaign) :
    e.submit_jobs c (some SubmitOrder.RUN_ORIENTED_CONDENSED)
      = submitEach (fun run => e.get_encoding_and_exec_task c run) c.runs := rfl

/-- Strategy dispatch equation: run-oriented branch. -/
theorem submit_jobs_run_oriented (e : Executor) (c : Campaign) :
    e.submit_jobs c (some SubmitOrder.RUN_ORIENTED)
      = submitEachPair (fun run => e.get_encoding_task c run)
          (fun run => e.get_exec_task run) c.runs := rfl

/-- Strategy dispatch equation: phase-oriented branch. -/
theorem submit_jobs_phase_oriented (e : Executor) (c : Campaign) :
    e.submit_jobs c (some SubmitOrder.PHASE_ORIENTED)
      = match submitEach (fun run => e.get_encoding_task c run) c.runs with
        | Except.error err => Except.error err
        | Except.ok l1 =>
          match submitEach (fun run => e.get_exec_task run) c.runs with
          | Except.error err => Except.error err
          | Except.ok l2 => Except.ok (l1 ++ l2) := rfl

/-- Strategy dispatch equation: exec-only branch. -/
theorem submit_jobs_exec_only (e : Executor) (c : Campaign) :
    e.submit_jobs c (some SubmitOrder.EXEC_ONLY)
      = submitEach (fun run => e.get_exec_only_task run) c.runs := rfl

/-- Strategy dispatch equation: a value that is none of the four members
falls through the if/elif chain. -/
theorem submit_jobs_foreign (e : Executor) (c : Campaign) :
    e.submit_jobs c Option.none = Except.ok [] := rfl

/-- The encoding builder succeeds once the ENCODING spec is found. -/
theorem get_encoding_task_ok (e : Executor) (c : Campaign)
    (run : String × RunRecord) (t : Task)
    (h : e.tasks.lookup (TaskName.ofType TaskType.ENCODING) = some t) :
    e.get_encoding_task c run = Except.ok (encode_task e.qcgpj_tempdir t c run) := by
  unfold Executor.get_encoding_task
  rw [h]

/-- The execution builder succeeds once the EXECUTION spec is found. -/
theorem get_exec_task_ok (e : Executor) (run : String × RunRecord) (t : Task)
    (h : e.tasks.lookup (TaskName.ofType TaskType.EXECUTION) = some t) :
    e.get_exec_task run = Except.ok (execute_task e.qcgpj_tempdir t run) := by
  unfold Executor.get_exec_task
  rw [h]

/-- The condensed builder succeeds once the ENCODING_AND_EXECUTION spec is
found. -/
theorem get_encoding_and_exec_task_ok (e : Executor) (c : Campaign)
    (run : String × RunRecord) (t : Task)
    (h : e.tasks.lookup (TaskName.ofType TaskType.ENCODING_AND_EXECUTION) = some t) :
    e.get_encoding_and_exec_task c run
      = Except.ok (encode_execute_task e.qcgpj_tempdir t c run) := by
  unfold Executor.get_encoding_and_exec_task
  rw [h]

/-- The standalone execution builder succeeds once the EXECUTION spec is
found. -/
theorem get_exec_only_task_ok (e : Executor) (run : String × RunRecord) (t : Task)
    (h : e.tasks.lookup (TaskName.ofType TaskType.EXECUTION) = some t) :
    e.get_exec_only_task run = Except.ok (execute_only_task e.qcgpj_tempdir t run) := by
  unfold Executor.get_exec_only_task
  rw [h]

/-- Every descriptor the encoding builder returns is named `encode_<key>`. -/
theorem get_encoding_task_name (e : Executor) (c : Campaign)
    (run : String × RunRecord) (d : TaskDescriptor)
    (h : e.get_encoding_task c run = Except.ok d) :
    d.name = "encode_" ++ run.1 := by
  unfold Executor.get_encoding_task at h
  cases hl : e.tasks.lookup (TaskName.ofType TaskType.ENCODING) with
  | none => rw [hl] at h; cases h
  | some t => rw [hl] at h; cases h; rfl

/-- Every descriptor the execution builder returns is named `execute_<key>`. -/
theorem get_exec_task_name (e : Executor) (run : String × RunRecord)
    (d : TaskDescriptor) (h : e.get_exec_task run = Except.ok d) :
    d.name = "execute_" ++ run.1 := by
  unfold Executor.get_exec_task at h
  cases hl : e.tasks.lookup (TaskName.ofType TaskType.EXECUTION) with
  | none => rw [hl] at h; cases h
  | some t => rw [hl] at h; cases h; rfl

/-- Every descriptor the condensed builder returns is named
`encode_execute_<key>`. -/
theorem get_encoding_and_exec_task_name (e : Executor) (c : Campaign)
    (run : String × RunRecord) (d : TaskDescriptor)
    (h : e.get_encoding_and_exec_task c run = Except.ok d) :
    d.name = "encode_execute_" ++ run.1 := by
  unfold Executor.get_encoding_and_exec_task at h
  cases hl : e.tasks.lookup (TaskName.ofType TaskType.ENCODING_AND_EXECUTION) with
  | none => rw [hl] at h; cases h
  | some t => rw [hl] at h; cases h; rfl

/-- Every descriptor the standalone execution builder returns is named
`execute_<key>`. -/
theorem get_exec_only_task_name (e : Executor) (run : String × RunRecord)
    (d : TaskDescriptor) (h : e.get_exec_only_task run = Except.ok d) :
    d.name = "execute_" ++ run.1 := by
  unfold Executor.get_exec_only_task at h
  cases hl : e.tasks.lookup (TaskName.ofType TaskType.EXECUTION) with
  | none => rw [hl] at h; cases h
  | some t => rw [hl] at h; cases h; rfl

/-- Prefixing a fixed string preserves pairwise distinctness. -/
theorem nodup_map_append_left (pre : String) (keys : List String)
    (h : keys.Nodup) : (keys.map (fun k => pre ++ k)).Nodup := by
  refine List.Nodup.map ?_ h
  intro a b hab
  exact string_append_left_cancel pre a b hab

/-- Pairwise-distinct run keys give pairwise-distinct prefixed task
names. -/
theorem nodup_map_key (pre : String) (runs : List (String × RunRecord))
    (h : (runs.map Prod.fst).Nodup) :
    (runs.map fun r => pre ++ r.1).Nodup := by
  have hmm : (runs.map fun r => pre ++ r.1)
      = (runs.map Prod.fst).map (fun k => pre ++ k) :=
    (List.map_map (fun k => pre ++ k) Prod.fst runs).symm
  rw [hmm]
  exact nodup_map_append_left pre _ h

/-- Lookup under a different key is unchanged by a dict assignment. -/
theorem lookup_dictSet_ne {α β : Type} [DecidableEq α] (d : List (α × β))
    (k n : α) (v : β) (hn : ¬ n = k) :
    (dictSet d k v).lookup n = d.lookup n := by
  unfold dictSet
  rw [List.lookup, beq_eq_false_iff_ne.mpr hn]
  induction d with
  | nil => rfl
  | cons p rest ih =>
    by_cases hpk : p.1 = k
    · rw [show (p :: rest).filter (fun q => ¬ q.1 = k) = rest.filter (fun q => ¬ q.1 = k)
          from by simp [List.filter_cons, hpk]]
      rw [ih]
      rw [List.lookup, beq_eq_false_iff_ne.mpr (fun hnp => hn (hnp.trans hpk))]
    · rw [show (p :: rest).filter (fun q => ¬ q.1 = k)
            = p :: rest.filter (fun q => ¬ q.1 = k)
          from by simp [List.filter_cons, hpk]]
      rw [List.lookup, List.lookup]
      cases hb : n == p.1
      · exact ih
      · rfl

/-- A dict assignment leaves the key set without duplicates. -/
theorem dictSet_keys_nodup {α β : Type} [DecidableEq α] (d : List (α × β))
    (k : α) (v : β) (hd : (d.map Prod.fst).Nodup) :
    ((dictSet d k v).map Prod.fst).Nodup := by
  unfold dictSet
  rw [List.map_cons]
  refine List.Nodup.cons ?_ ?_
  · intro hmem
    obtain ⟨p, hp, hpk⟩ := List.mem_map.mp hmem
    have hno : ¬ p.1 = k := by simpa using (List.mem_filter.mp hp).2
    exact hno hpk
  · exact hd.sublist ((List.filter_sublist d).map Prod.fst)

end Helpers

/-- C2: for every run, an `execute_<key>` descriptor built by the
post-encode execution builder (the one used by the RUN_ORIENTED and
PHASE_ORIENTED strategies) declares a dependency set equal to exactly
the singleton containing the matching encode task name `encode_<key>`. -/
theorem C2_execute_depends_on_matching_encode (e : Executor)
    (run : String × RunRecord) (d : TaskDescriptor)
    (h : e.get_exec_task run = Except.ok d) :
    d.dependencies = some ["encode_" ++ run.1] := by
  unfold Executor.get_exec_task at h
  cases hl : e.tasks.lookup (TaskName.ofType TaskType.EXECUTION) with
  | none => rw [hl] at h; cases h
  | some t => rw [hl] at h; cases h; rfl

/-- Witness for C2 at a concrete executor and run. -/
theorem C2_witness :
    sampleExecutor.get_exec_task ("Run_1", { run_dir := "/tmp/Run_1" })
      = Except.ok (execute_task "." sampleTaskX ("Run_1", { run_dir := "/tmp/Run_1" }))
    ∧ (execute_task "." sampleTaskX ("Run_1", { run_dir := "/tmp/Run_1" })).dependencies
      = some ["encode_" ++ "Run_1"] :=
  ⟨by decide,
   C2_execute_depends_on_matching_encode sampleExecutor
     ("Run_1", { run_dir := "/tmp/Run_1" }) _ (by decide)⟩

/-- C3: in a well-formed registry, when no spec of the kind a builder
requires was registered (ENCODING for the encoding builder used by the two
encoding strategies, EXECUTION for the execution builders used by all
strategies but the condensed one, ENCODING_AND_EXECUTION for the condensed
builder), building a descriptor for any run fails with the MissingTaskSpec
error. -/
theorem C3_missing_task_spec_fails (e : Executor) (c : Campaign)
    (run : String × RunRecord) (hw : e.WellFormed) :
    (¬ e.hasKind TaskType.ENCODING →
        e.get_encoding_task c run = Except.error BuildError.MissingTaskSpec)
    ∧ (¬ e.hasKind TaskType.EXECUTION →
        e.get_exec_task run = Except.error BuildError.MissingTaskSpec)
    ∧ (¬ e.hasKind TaskType.EXECUTION →
        e.get_exec_only_task run = Except.error BuildError.MissingTaskSpec)
    ∧ (¬ e.hasKind TaskType.ENCODING_AND_EXECUTION →
        e.get_encoding_and_exec_task c run = Except.error BuildError.MissingTaskSpec) := by
  refine ⟨?_, ?_, ?_, ?_⟩ <;> intro hk
  · unfold Executor.get_encoding_task
    rw [lookup_ofType_eq_none e _ hw hk]
  · unfold Executor.get_exec_task
    rw [lookup_ofType_eq_none e _ hw hk]
  · unfold Executor.get_exec_only_task
    rw [lookup_ofType_eq_none e _ hw hk]
  · unfold Executor.get_encoding_and_exec_task
    rw [lookup_ofType_eq_none e _ hw hk]

/-- Witness for C3 at the freshly initialised executor, where nothing is
registered: all four builders fail with MissingTaskSpec. -/
theorem C3_witness :
    executorInit.WellFormed
    ∧ executorInit.get_encoding_task sampleCampaign ("Run_1", { run_dir := "/tmp/Run_1" })
        = Except.error BuildError.MissingTaskSpec
    ∧ executorInit.get_exec_task ("Run_1", { run_dir := "/tmp/Run_1" })
        = Except.error BuildError.MissingTaskSpec
    ∧ executorInit.get_exec_only_task ("Run_1", { run_dir := "/tmp/Run_1" })
        = Except.error BuildError.MissingTaskSpec
    ∧ executorInit.get_encoding_and_exec_task sampleCampaign ("Run_1", { run_dir := "/tmp/Run_1" })
        = Except.error BuildError.MissingTaskSpec := by
  have hw : executorInit.WellFormed := by
    intro p hp
    exact absurd hp (List.not_mem_nil p)
  have hkE : ¬ executorInit.hasKind TaskType.ENCODING := by
    rintro ⟨p, hp, -⟩
    exact List.not_mem_nil p hp
  have hkX : ¬ executorInit.hasKind TaskType.EXECUTION := by
    rintro ⟨p, hp, -⟩
    exact List.not_mem_nil p hp
  have hkC : ¬ executorInit.hasKind TaskType.ENCODING_AND_EXECUTION := by
    rintro ⟨p, hp, -⟩
    exact List.not_mem_nil p hp
  obtain ⟨h1, h2, h3, h4⟩ :=
    C3_missing_task_spec_fails executorInit sampleCampaign
      ("Run_1", { run_dir := "/tmp/Run_1" }) hw
  exact ⟨hw, h1 hkE, h2 hkX, h3 hkX, h4 hkC⟩

/-- C4 is refuted: with an EXECUTION spec (resp. ENCODING_AND_EXECUTION
spec) registered whose params lack the `application` key, building the
execution (resp. condensed) descriptor does not fail with MissingParameter;
it succeeds, placing Python `None` in the application argument slot. -/
theorem C4_counterexample :
    noAppExecutor.get_exec_task ("R1", { run_dir := "/d" })
      = Except.ok (execute_task "." noAppTaskX ("R1", { run_dir := "/d" }))
    ∧ (execute_task "." noAppTaskX ("R1", { run_dir := "/d" })).execution.args
      = [some "/d", some "easyvvuq_app", Option.none]
    ∧ noAppExecutor.get_exec_task ("R1", { run_dir := "/d" })
      ≠ Except.error BuildError.MissingParameter
    ∧ noAppExecutor.get_encoding_and_exec_task sampleCampaign ("R1", { run_dir := "/d" })
      = Except.ok (encode_execute_task "." noAppTaskC sampleCampaign ("R1", { run_dir := "/d" }))
    ∧ noAppExecutor.get_encoding_and_exec_task sampleCampaign ("R1", { run_dir := "/d" })
      ≠ Except.error BuildError.MissingParameter := by decide

/-- C4 amended: when the registered EXECUTION (resp.
ENCODING_AND_EXECUTION) spec's params lack the `application` key, building
the execution (resp. condensed) descriptor for any run succeeds, and the
application position of the args holds Python `None`. -/
theorem C4_missing_application_yields_none (e : Executor) (c : Campaign)
    (run : String × RunRecord) (tX tC : Task)
    (hX : e.tasks.lookup (TaskName.ofType TaskType.EXECUTION) = some tX)
    (haX : tX.params.lookup "application" = Option.none)
    (hC : e.tasks.lookup (TaskName.ofType TaskType.ENCODING_AND_EXECUTION) = some tC)
    (haC : tC.params.lookup "application" = Option.none) :
    e.get_exec_task run = Except.ok (execute_task e.qcgpj_tempdir tX run)
    ∧ (execute_task e.qcgpj_tempdir tX run).execution.args
      = [some run.2.run_dir, some "easyvvuq_app", Option.none]
    ∧ e.get_encoding_and_exec_task c run
      = Except.ok (encode_execute_task e.qcgpj_tempdir tC c run)
    ∧ (encode_execute_task e.qcgpj_tempdir tC c run).execution.args
      = [some c.db_type, some c.db_location, some "FALSE", some c.campaign_name,
         some c.active_app_name, some run.1, some run.2.run_dir,
         some "easyvvuq_app", Option.none] := by
  refine ⟨get_exec_task_ok e run tX hX, ?_,
    get_encoding_and_exec_task_ok e c run tC hC, ?_⟩
  · simp [execute_task, haX]
  · simp [encode_execute_task, haC]

/-- Witness for the amended C4 at a concrete executor lacking the
`application` param in both relevant specs. -/
theorem C4_witness :
    noAppExecutor.tasks.lookup (TaskName.ofType TaskType.EXECUTION) = some noAppTaskX
    ∧ noAppTaskX.params.lookup "application" = Option.none
    ∧ noAppExecutor.tasks.lookup (TaskName.ofType TaskType.ENCODING_AND_EXECUTION)
        = some noAppTaskC
    ∧ noAppTaskC.params.lookup "application" = Option.none
    ∧ (noAppExecutor.get_exec_task ("R1", { run_dir := "/d" })
        = Except.ok (execute_task "." noAppTaskX ("R1", { run_dir := "/d" }))
      ∧ (execute_task "." noAppTaskX ("R1", { run_dir := "/d" })).execution.args
        = [some "/d", some "easyvvuq_app", Option.none]
      ∧ noAppExecutor.get_encoding_and_exec_task sampleCampaign ("R1", { run_dir := "/d" })
        = Except.ok (encode_execute_task "." noAppTaskC sampleCampaign ("R1", { run_dir := "/d" }))
      ∧ (encode_execute_task "." noAppTaskC sampleCampaign ("R1", { run_dir := "/d" })).execution.args
        = [some sampleCampaign.db_type, some sampleCampaign.db_location, some "FALSE",
           some sampleCampaign.campaign_name, some sampleCampaign.active_app_name,
           some "R1", some "/d", some "easyvvuq_app", Option.none]) :=
  ⟨by decide, by decide, by decide, by decide,
   C4_missing_application_yields_none noAppExecutor sampleCampaign
     ("R1", { run_dir := "/d" }) noAppTaskX noAppTaskC
     (by decide) (by decide) (by decide) (by decide)⟩

/-- C6 is refuted: a Task constructed without a name gets as its name the
`TaskType` member itself, which is not the string form of the kind (a
Python string never equals an enum member). -/
theorem C6_counterexample :
    (Task.fromInit TaskType.EXECUTION sampleReq Option.none []).name
      = TaskName.ofType TaskType.EXECUTION
    ∧ (Task.fromInit TaskType.EXECUTION sampleReq Option.none []).name
      ≠ TaskName.ofString "EXECUTION"
    ∧ (Task.fromInit TaskType.EXECUTION sampleReq Option.none []).name
      ≠ TaskName.ofString TaskType.EXECUTION.value := by decide

/-- C6 amended: a Task constructed without a name argument (or with the
falsy empty string) gets as its name its kind's `TaskType` member itself,
not the kind's string form; an explicit non-empty name is kept as given. -/
theorem C6_default_name_is_kind_member (type : TaskType)
    (req : TaskRequirements) (params : List (String × String)) :
    (Task.fromInit type req Option.none params).name = TaskName.ofType type
    ∧ (Task.fromInit type req (some "") params).name = TaskName.ofType type
    ∧ ∀ s : String, ¬ s = "" →
        (Task.fromInit type req (some s) params).name = TaskName.ofString s := by
  refine ⟨rfl, rfl, ?_⟩
  intro s hs
  simp [Task.fromInit, hs]

/-- Witness for the amended C6 at concrete inputs. -/
theorem C6_witness :
    (Task.fromInit TaskType.EXECUTION sampleReq (some "x") []).name
      = TaskName.ofString "x" :=
  (C6_default_name_is_kind_member TaskType.EXECUTION sampleReq []).2.2 "x" (by decide)

/-- C7: whenever `run` returns (after its blocking wait), for every
strategy argument — the four members and any foreign value alike — the
campaign's status table is rewritten by unconditionally turning every NEW
entry into ENCODED, touching nothing else and consulting no task
outcome. -/
theorem C7_unconditional_new_to_encoded (e : Executor) (c : Campaign)
    (o : Option SubmitOrder) (l : List TaskDescriptor) (c' : Campaign)
    (h : e.run c o = Except.ok (l, c')) :
    c'.statuses = c.statuses.map
      (fun p => if p.2 = Status.NEW then (p.1, Status.ENCODED) else p)
    ∧ (∀ p ∈ c.statuses, p.2 = Status.NEW → (p.1, Status.ENCODED) ∈ c'.statuses)
    ∧ (∀ p ∈ c.statuses, ¬ p.2 = Status.NEW → p ∈ c'.statuses) := by
  unfold Executor.run at h
  cases hs : e.submit_jobs c o with
  | error err => rw [hs] at h; cases h
  | ok sub =>
    rw [hs] at h
    cases h
    refine ⟨rfl, ?_, ?_⟩
    · intro p hp hnew
      refine List.mem_map.mpr ⟨p, hp, ?_⟩
      rw [if_pos hnew]
    · intro p hp hnnew
      refine List.mem_map.mpr ⟨p, hp, ?_⟩
      rw [if_neg hnnew]

/-- Witness for C7: a concrete EXEC_ONLY run (no encode task submitted at
all) still flips the NEW run to ENCODED and keeps the other status. -/
theorem C7_witness :
    sampleExecutor.run sampleCampaign (some SubmitOrder.EXEC_ONLY)
      = Except.ok
          ([execute_only_task "." sampleTaskX ("Run_1", { run_dir := "/tmp/Run_1" }),
            execute_only_task "." sampleTaskX ("Run_2", { run_dir := "/tmp/Run_2" })],
           sampleCampaign.syncEncoded)
    ∧ (sampleCampaign.syncEncoded.statuses = sampleCampaign.statuses.map
        (fun p => if p.2 = Status.NEW then (p.1, Status.ENCODED) else p)
      ∧ (∀ p ∈ sampleCampaign.statuses, p.2 = Status.NEW →
          (p.1, Status.ENCODED) ∈ sampleCampaign.syncEncoded.statuses)
      ∧ (∀ p ∈ sampleCampaign.statuses, ¬ p.2 = Status.NEW →
          p ∈ sampleCampaign.syncEncoded.statuses)) :=
  ⟨by decide,
   C7_unconditional_new_to_encoded sampleExecutor sampleCampaign
     (some SubmitOrder.EXEC_ONLY)
     [execute_only_task "." sampleTaskX ("Run_1", { run_dir := "/tmp/Run_1" }),
      execute_only_task "." sampleTaskX ("Run_2", { run_dir := "/tmp/Run_2" })]
     sampleCampaign.syncEncoded (by decide)⟩

/-- C8: the log-level translation of `create_manager` is case-insensitive —
a name whose upper-cased form names a service (resp. client) level maps to
that level's value, and any unrecognized name falls back to the DEBUG
value on both the service and the client side. -/
theorem C8_log_level_translation (s : String) :
    (∀ lv, ServiceLogLevel.ofName (pyUpper s) = some lv →
        (create_manager_log_levels s).1 = lv.value)
    ∧ (ServiceLogLevel.ofName (pyUpper s) = Option.none →
        (create_manager_log_levels s).1 = ServiceLogLevel.DEBUG.value)
    ∧ (∀ lv, ClientLogLevel.ofName (pyUpper s) = some lv →
        (create_manager_log_levels s).2 = lv.value)
    ∧ (ClientLogLevel.ofName (pyUpper s) = Option.none →
        (create_manager_log_levels s).2 = ClientLogLevel.DEBUG.value) := by
  refine ⟨?_, ?_, ?_, ?_⟩
  · intro lv h
    simp [create_manager_log_levels, h]
  · intro h
    simp [create_manager_log_levels, h]
  · intro lv h
    simp [create_manager_log_levels, h]
  · intro h
    simp [create_manager_log_levels, h]

/-- Witness for C8 at `"Error"`: mixed case maps to the service `error`
value, while the client side (which has no ERROR member) falls back to
`debug`; the unrecognized `"trace"` falls back on both sides. -/
theorem C8_witness :
    ServiceLogLevel.ofName (pyUpper "Error") = some ServiceLogLevel.ERROR
    ∧ (create_manager_log_levels "Error").1 = ServiceLogLevel.ERROR.value
    ∧ ClientLogLevel.ofName (pyUpper "Error") = Option.none
    ∧ (create_manager_log_levels "Error").2 = ClientLogLevel.DEBUG.value
    ∧ ServiceLogLevel.ofName (pyUpper "trace") = Option.none
    ∧ (create_manager_log_levels "trace").1 = ServiceLogLevel.DEBUG.value :=
  ⟨by decide,
   (C8_log_level_translation "Error").1 ServiceLogLevel.ERROR (by decide),
   by decide,
   (C8_log_level_translation "Error").2.2.2 (by decide),
   by decide,
   (C8_log_level_translation "trace").2.1 (by decide)⟩

/-- C10: calling `run` with a submit-order value that is none of the four
SubmitOrder members submits zero tasks and raises no error, yet still
performs the blocking wait and still marks every NEW run ENCODED. -/
theorem C10_foreign_submit_order (e : Executor) (c : Campaign) :
    e.submit_jobs c Option.none = Except.ok []
    ∧ e.run c Option.none = Except.ok ([], c.syncEncoded)
    ∧ c.syncEncoded.statuses = c.statuses.map
        (fun p => if p.2 = Status.NEW then (p.1, Status.ENCODED) else p) :=
  ⟨rfl, rfl, rfl⟩

/-- Length of the per-run interleaved descriptor list. -/
theorem length_flatMap_pair {α β : Type} (l : List α) (f g : α → β) :
    (l.flatMap fun a => [f a, g a]).length = 2 * l.length := by
  induction l with
  | nil => rfl
  | cons a l ih =>
    rw [List.flatMap_cons, List.length_append, ih, List.length_cons]
    simp
    omega

/-- C5 is refuted: two EXECUTION-kind specs registered under distinct
explicit names are both stored (so more than one spec of that kind is in
the registry), and the registry is not keyed by the kind (a lookup with the
kind's member as key finds nothing). -/
theorem C5_counterexample :
    (dupExecutor.tasks.filter fun p => (p.2).type = TaskType.EXECUTION).length = 2
    ∧ dupExecutor.tasks.lookup (TaskName.ofType TaskType.EXECUTION)
        = Option.none := by decide

/-- C5 amended: `add_task` stores specs keyed by the task's *name* (which
defaults to its kind's member): a later registration under the same name
silently overwrites the earlier one (last-write-wins, no error), other
names are untouched, and at any time at most one spec is stored per
name. -/
theorem C5_registry_keyed_by_name (e : Executor) (t : Task)
    (he : (e.tasks.map Prod.fst).Nodup) :
    (e.add_task t).tasks.lookup t.name = some t
    ∧ (∀ n, ¬ n = t.name → (e.add_task t).tasks.lookup n = e.tasks.lookup n)
    ∧ ((e.add_task t).tasks.map Prod.fst).Nodup := by
  refine ⟨?_, ?_, dictSet_keys_nodup e.tasks t.name t he⟩
  · show (dictSet e.tasks t.name t).lookup t.name = some t
    unfold dictSet
    simp [List.lookup]
  · intro n hn
    exact lookup_dictSet_ne e.tasks t.name n t hn

/-- Witness for the amended C5: overwriting registration at a concrete
executor. -/
theorem C5_witness :
    (sampleExecutor.tasks.map Prod.fst).Nodup
    ∧ ((sampleExecutor.add_task dupTaskA).tasks.lookup dupTaskA.name = some dupTaskA
      ∧ (∀ n, ¬ n = dupTaskA.name →
          (sampleExecutor.add_task dupTaskA).tasks.lookup n
            = sampleExecutor.tasks.lookup n)
      ∧ ((sampleExecutor.add_task dupTaskA).tasks.map Prod.fst).Nodup) :=
  ⟨by decide, C5_registry_keyed_by_name sampleExecutor dupTaskA (by decide)⟩

/-- C1: with the three consumable kinds registered, one submission pass
over a campaign of N runs hands the scheduler exactly: PHASE_ORIENTED —
2N descriptors, the N encode descriptors (in run order) all before the N
execute descriptors; RUN_ORIENTED — 2N descriptors interleaved per run,
encode then execute for each run before the next run;
RUN_ORIENTED_CONDENSED — exactly the N condensed descriptors; EXEC_ONLY —
exactly the N execute descriptors, none carrying a dependency. -/
theorem C1_strategy_submissions (e : Executor) (c : Campaign) (tE tX tC : Task)
    (hE : e.tasks.lookup (TaskName.ofType TaskType.ENCODING) = some tE)
    (hX : e.tasks.lookup (TaskName.ofType TaskType.EXECUTION) = some tX)
    (hC : e.tasks.lookup (TaskName.ofType TaskType.ENCODING_AND_EXECUTION) = some tC) :
    (e.submit_jobs c (some SubmitOrder.PHASE_ORIENTED)
        = Except.ok (c.runs.map (fun r => encode_task e.qcgpj_tempdir tE c r)
            ++ c.runs.map (fun r => execute_task e.qcgpj_tempdir tX r))
      ∧ (c.runs.map (fun r => encode_task e.qcgpj_tempdir tE c r)
          ++ c.runs.map (fun r => execute_task e.qcgpj_tempdir tX r)).length
          = 2 * c.runs.length
      ∧ (∀ d ∈ c.runs.map (fun r => encode_task e.qcgpj_tempdir tE c r),
          d.execution.exec = "easyvvuq_encode")
      ∧ (∀ d ∈ c.runs.map (fun r => execute_task e.qcgpj_tempdir tX r),
          d.execution.exec = "easyvvuq_execute"))
    ∧ (e.submit_jobs c (some SubmitOrder.RUN_ORIENTED)
        = Except.ok (c.runs.flatMap (fun r =>
            [encode_task e.qcgpj_tempdir tE c r, execute_task e.qcgpj_tempdir tX r]))
      ∧ (c.runs.flatMap (fun r =>
          [encode_task e.qcgpj_tempdir tE c r, execute_task e.qcgpj_tempdir tX r])).length
          = 2 * c.runs.length)
    ∧ (e.submit_jobs c (some SubmitOrder.RUN_ORIENTED_CONDENSED)
        = Except.ok (c.runs.map (fun r => encode_execute_task e.qcgpj_tempdir tC c r))
      ∧ (c.runs.map (fun r => encode_execute_task e.qcgpj_tempdir tC c r)).length
          = c.runs.length)
    ∧ (e.submit_jobs c (some SubmitOrder.EXEC_ONLY)
        = Except.ok (c.runs.map (fun r => execute_only_task e.qcgpj_tempdir tX r))
      ∧ (c.runs.map (fun r => execute_only_task e.qcgpj_tempdir tX r)).length
          = c.runs.length
      ∧ ∀ d ∈ c.runs.map (fun r => execute_only_task e.qcgpj_tempdir tX r),
          d.dependencies = Option.none) := by
  have hencOk : ∀ r ∈ c.runs,
      e.get_encoding_task c r = Except.ok (encode_task e.qcgpj_tempdir tE c r) :=
    fun r _ => get_encoding_task_ok e c r tE hE
  have hexeOk : ∀ r ∈ c.runs,
      e.get_exec_task r = Except.ok (execute_task e.qcgpj_tempdir tX r) :=
    fun r _ => get_exec_task_ok e r tX hX
  have hcondOk : ∀ r ∈ c.runs,
      e.get_encoding_and_exec_task c r
        = Except.ok (encode_execute_task e.qcgpj_tempdir tC c r) :=
    fun r _ => get_encoding_and_exec_task_ok e c r tC hC
  have honlyOk : ∀ r ∈ c.runs,
      e.get_exec_only_task r = Except.ok (execute_only_task e.qcgpj_tempdir tX r) :=
    fun r _ => get_exec_only_task_ok e r tX hX
  have hPenc := submitEach_eq_ok _ _ _ hencOk
  have hPexe := submitEach_eq_ok _ _ _ hexeOk
  refine ⟨⟨?_, ?_, ?_, ?_⟩, ⟨?_, ?_⟩, ⟨?_, ?_⟩, ⟨?_, ?_, ?_⟩⟩
  · rw [submit_jobs_phase_oriented, hPenc, hPexe]
  · rw [List.length_append, List.length_map, List.length_map]
    omega
  · intro d hd
    obtain ⟨r, hr, rfl⟩ := List.mem_map.mp hd
    rfl
  · intro d hd
    obtain ⟨r, hr, rfl⟩ := List.mem_map.mp hd
    rfl
  · rw [submit_jobs_run_oriented]
    exact submitEachPair_eq_ok _ _ _ _ _ hencOk hexeOk
  · exact length_flatMap_pair c.runs _ _
  · rw [submit_jobs_condensed]
    exact submitEach_eq_ok _ _ _ hcondOk
  · exact List.length_map c.runs _
  · rw [submit_jobs_exec_only]
    exact submitEach_eq_ok _ _ _ honlyOk
  · exact List.length_map c.runs _
  · intro d hd
    obtain ⟨r, hr, rfl⟩ := List.mem_map.mp hd
    rfl

/-- Witness for C1 at a concrete executor and a two-run campaign. -/
theorem C1_witness :
    sampleExecutor.tasks.lookup (TaskName.ofType TaskType.ENCODING) = some sampleTaskE
    ∧ sampleExecutor.tasks.lookup (TaskName.ofType TaskType.EXECUTION) = some sampleTaskX
    ∧ sampleExecutor.tasks.lookup (TaskName.ofType TaskType.ENCODING_AND_EXECUTION)
        = some sampleTaskC
    ∧ ((sampleExecutor.submit_jobs sampleCampaign (some SubmitOrder.PHASE_ORIENTED)
        = Except.ok (sampleCampaign.runs.map
              (fun r => encode_task sampleExecutor.qcgpj_tempdir sampleTaskE sampleCampaign r)
            ++ sampleCampaign.runs.map
              (fun r => execute_task sampleExecutor.qcgpj_tempdir sampleTaskX r))
      ∧ (sampleCampaign.runs.map
            (fun r => encode_task sampleExecutor.qcgpj_tempdir sampleTaskE sampleCampaign r)
          ++ sampleCampaign.runs.map
            (fun r => execute_task sampleExecutor.qcgpj_tempdir sampleTaskX r)).length
          = 2 * sampleCampaign.runs.length
      ∧ (∀ d ∈ sampleCampaign.runs.map
            (fun r => encode_task sampleExecutor.qcgpj_tempdir sampleTaskE sampleCampaign r),
          d.execution.exec = "easyvvuq_encode")
      ∧ (∀ d ∈ sampleCampaign.runs.map
            (fun r => execute_task sampleExecutor.qcgpj_tempdir sampleTaskX r),
          d.execution.exec = "easyvvuq_execute"))
    ∧ (sampleExecutor.submit_jobs sampleCampaign (some SubmitOrder.RUN_ORIENTED)
        = Except.ok (sampleCampaign.runs.flatMap (fun r =>
            [encode_task sampleExecutor.qcgpj_tempdir sampleTaskE sampleCampaign r,
             execute_task sampleExecutor.qcgpj_tempdir sampleTaskX r]))
      ∧ (sampleCampaign.runs.flatMap (fun r =>
          [encode_task sampleExecutor.qcgpj_tempdir sampleTaskE sampleCampaign r,
           execute_task sampleExecutor.qcgpj_tempdir sampleTaskX r])).length
          = 2 * sampleCampaign.runs.length)
    ∧ (sampleExecutor.submit_jobs sampleCampaign (some SubmitOrder.RUN_ORIENTED_CONDENSED)
        = Except.ok (sampleCampaign.runs.map
            (fun r => encode_execute_task sampleExecutor.qcgpj_tempdir sampleTaskC sampleCampaign r))
      ∧ (sampleCampaign.runs.map
          (fun r => encode_execute_task sampleExecutor.qcgpj_tempdir sampleTaskC sampleCampaign r)).length
          = sampleCampaign.runs.length)
    ∧ (sampleExecutor.submit_jobs sampleCampaign (some SubmitOrder.EXEC_ONLY)
        = Except.ok (sampleCampaign.runs.map
            (fun r => execute_only_task sampleExecutor.qcgpj_tempdir sampleTaskX r))
      ∧ (sampleCampaign.runs.map
          (fun r => execute_only_task sampleExecutor.qcgpj_tempdir sampleTaskX r)).length
          = sampleCampaign.runs.length
      ∧ ∀ d ∈ sampleCampaign.runs.map
          (fun r => execute_only_task sampleExecutor.qcgpj_tempdir sampleTaskX r),
          d.dependencies = Option.none)) :=
  ⟨by decide, by decide, by decide,
   C1_strategy_submissions sampleExecutor sampleCampaign sampleTaskE sampleTaskX sampleTaskC
     (by decide) (by decide) (by decide)⟩

/-- C9: with pairwise-distinct run keys, every successful submission pass
of any strategy (and any foreign submit-order value) yields descriptors
with pairwise-distinct names, for any number N of runs; and with N = 0 runs
nothing is submitted while `run` (whose blocking wait is modelled as
returning) still completes. -/
theorem C9_descriptor_names_unique (e : Executor) (c : Campaign)
    (hkeys : (c.runs.map Prod.fst).Nodup) :
    (∀ o l, e.submit_jobs c o = Except.ok l → (l.map TaskDescriptor.name).Nodup)
    ∧ (c.runs = [] → ∀ o, e.submit_jobs c o = Except.ok []
        ∧ e.run c o = Except.ok ([], c.syncEncoded)) := by
  have hphase : ((c.runs.map fun r => "encode_" ++ r.1)
      ++ (c.runs.map fun r => "execute_" ++ r.1)).Nodup := by
    refine List.Nodup.append ?_ ?_ ?_
    · exact nodup_map_key "encode_" c.runs hkeys
    · exact nodup_map_key "execute_" c.runs hkeys
    · intro x hx1 hx2
      obtain ⟨r1, hr1, hre⟩ := List.mem_map.mp hx1
      obtain ⟨r2, hr2, hrx⟩ := List.mem_map.mp hx2
      exact encode_name_ne_execute_name r1.1 r2.1 (hre.trans hrx.symm)
  constructor
  · intro o l h
    rcases o with _ | s
    · rw [submit_jobs_foreign] at h
      cases h
      simp
    · cases s with
      | PHASE_ORIENTED =>
        rw [submit_jobs_phase_oriented] at h
        cases h1 : submitEach (fun run => e.get_encoding_task c run) c.runs with
        | error err => rw [h1] at h; cases h
        | ok l1 =>
          rw [h1] at h
          cases h2 : submitEach (fun run => e.get_exec_task run) c.runs with
          | error err => rw [h2] at h; cases h
          | ok l2 =>
            rw [h2] at h
            cases h
            have n1 := submitEach_ok_names _ (fun r => "encode_" ++ r.1) c.runs l1
              (fun r d hd => get_encoding_task_name e c r d hd) h1
            have n2 := submitEach_ok_names _ (fun r => "execute_" ++ r.1) c.runs l2
              (fun r d hd => get_exec_task_name e r d hd) h2
            rw [List.map_append, n1, n2]
            exact hphase
      | RUN_ORIENTED =>
        rw [submit_jobs_run_oriented] at h
        have hn := submitEachPair_ok_names _ _
          (fun r => "encode_" ++ r.1) (fun r => "execute_" ++ r.1) c.runs l
          (fun r d hd => get_encoding_task_name e c r d hd)
          (fun r d hd => get_exec_task_name e r d hd) h
        rw [hn]
        exact ((flatMap_pair_perm c.runs _ _).nodup_iff).mpr hphase
      | RUN_ORIENTED_CONDENSED =>
        rw [submit_jobs_condensed] at h
        have hn := submitEach_ok_names _ (fun r => "encode_execute_" ++ r.1) c.runs l
          (fun r d hd => get_encoding_and_exec_task_name e c r d hd) h
        rw [hn]
        exact nodup_map_key "encode_execute_" c.runs hkeys
      | EXEC_ONLY =>
        rw [submit_jobs_exec_only] at h
        have hn := submitEach_ok_names _ (fun r => "execute_" ++ r.1) c.runs l
          (fun r d hd => get_exec_only_task_name e r d hd) h
        rw [hn]
        exact nodup_map_key "execute_" c.runs hkeys
  · intro hruns o
    have hsj : e.submit_jobs c o = Except.ok [] := by
      rcases o with _ | s
      · rfl
      · cases s with
        | PHASE_ORIENTED => rw [submit_jobs_phase_oriented, hruns]; rfl
        | RUN_ORIENTED => rw [submit_jobs_run_oriented, hruns]; rfl
        | RUN_ORIENTED_CONDENSED => rw [submit_jobs_condensed, hruns]; rfl
        | EXEC_ONLY => rw [submit_jobs_exec_only, hruns]; rfl
    refine ⟨hsj, ?_⟩
    unfold Executor.run
    rw [hsj]

/-- Witness for C9 at a concrete executor and a distinct-keyed campaign,
and at the empty campaign. -/
theorem C9_witness :
    (sampleCampaign.runs.map Prod.fst).Nodup
    ∧ ((∀ o l, sampleExecutor.submit_jobs sampleCampaign o = Except.ok l →
          (l.map TaskDescriptor.name).Nodup)
      ∧ (sampleCampaign.runs = [] → ∀ o,
          sampleExecutor.submit_jobs sampleCampaign o = Except.ok []
          ∧ sampleExecutor.run sampleCampaign o
              = Except.ok ([], sampleCampaign.syncEncoded))) :=
  ⟨by decide, C9_descriptor_names_unique sampleExecutor sampleCampaign (by decide)⟩

end EasyPJ
